import Mathlib

/-!
# Verification of the PMOVES economic simulator core

This file gives a shallow embedding, over the rationals, of the core of the
PMOVES token simulator (package `pmoves_backend`: `models.py`, `metrics.py`,
`simulator.py`; the near-identical legacy copy lives in `flask_backend.py`),
and settles the frozen claims about it.

Modelling choices:

* Machine floats are modelled as `ℚ`.  All the arithmetic the claims touch
  (sums, means, comparisons, the Gini ratio, linear percentile interpolation)
  is exact rational arithmetic in the source formulas; only the
  `RiskResilience` indicator uses a square root (`np.std`), so that single
  derived field is left out of the embedded weekly record (no claim
  mentions it).
* Randomness is explicit.  `random.gauss mu sigma` is modelled as
  `mu + sigma * u k`, where `u : Nat → ℚ` is an ambient draw stream and `k`
  the number of draws consumed so far — the stream value stands for the
  standard normal variate.  `random.random()` is modelled as `Int.fract (u k)`,
  which has exactly the range `[0, 1)` of the library call.  The numpy
  generator used for the initial log-normal wealth draw is a second,
  independent stream `v`; the draw values are taken from `v` unconstrained
  (every use in the code immediately clamps with `max 0`).
* Python exceptions are modelled with `Except String`.  The two fallible
  points the code actually has are the numpy size error for a negative
  member count, and the `AttributeError` raised by `[].tolist()` when
  `calculate_metrics` receives an empty wealth list (the `if wealth_A_list`
  guard produces a plain Python list, which has no `tolist` method).
-/

namespace PMoves

/-- The flat simulation-parameter record (`DEFAULT_PARAMS` keys in
`pmoves_backend/models.py`).  `NUM_MEMBERS` and `SIMULATION_WEEKS` appear in
the code as `int(...)` conversions, hence `Int` here; every other field is a
float, modelled as `ℚ`. -/
structure Params where
  numMembers : Int
  simulationWeeks : Int
  initialWealthMeanLog : ℚ
  initialWealthSigmaLog : ℚ
  weeklyFoodBudgetAvg : ℚ
  weeklyFoodBudgetStddev : ℚ
  minWeeklyBudget : ℚ
  weeklyIncomeAvg : ℚ
  weeklyIncomeStddev : ℚ
  minWeeklyIncome : ℚ
  groupBuySavingsPercent : ℚ
  localProductionSavingsPercent : ℚ
  percentSpendInternalAvg : ℚ
  percentSpendInternalStddev : ℚ
  grotokenRewardPerWeekAvg : ℚ
  grotokenRewardStddev : ℚ
  grotokenUsdValue : ℚ
  weeklyCoopFeeB : ℚ

/-- The documented semantic constraints on a validated configuration
(spec section 6 / the claim premise): savings and propensity parameters lie
in `[0,1]`, fee, income, budget, token-reward and token-value parameters are
non-negative. -/
def ParamsValid (p : Params) : Prop :=
  0 ≤ p.weeklyFoodBudgetAvg ∧ 0 ≤ p.weeklyFoodBudgetStddev ∧
  0 ≤ p.minWeeklyBudget ∧
  0 ≤ p.weeklyIncomeAvg ∧ 0 ≤ p.weeklyIncomeStddev ∧ 0 ≤ p.minWeeklyIncome ∧
  0 ≤ p.groupBuySavingsPercent ∧ p.groupBuySavingsPercent ≤ 1 ∧
  0 ≤ p.localProductionSavingsPercent ∧ p.localProductionSavingsPercent ≤ 1 ∧
  0 ≤ p.percentSpendInternalAvg ∧ p.percentSpendInternalAvg ≤ 1 ∧
  0 ≤ p.percentSpendInternalStddev ∧ p.percentSpendInternalStddev ≤ 1 ∧
  0 ≤ p.grotokenRewardPerWeekAvg ∧ 0 ≤ p.grotokenRewardStddev ∧
  0 ≤ p.grotokenUsdValue ∧ 0 ≤ p.weeklyCoopFeeB

/-- `random.gauss(mu, sigma)`: the next stream value is the standard normal
variate.  Returns the draw and the advanced draw counter. -/
def gaussDraw (u : Nat → ℚ) (mu sigma : ℚ) (k : Nat) : ℚ × Nat :=
  (mu + sigma * u k, k + 1)

/-- `random.random()`: a value in `[0, 1)`, modelled as the fractional part
of the next stream value. -/
def randomDraw (u : Nat → ℚ) (k : Nat) : ℚ × Nat :=
  (Int.fract (u k), k + 1)

/-- `np.mean` on a list (`sum / len`).  numpy returns NaN on an empty list;
in the embedding `0 / 0 = 0`.  Every call site the claims reach is guarded
so the empty case never arises there. -/
def npMean (l : List ℚ) : ℚ := l.sum / (l.length : ℚ)

/-- `np.sort`: ascending sort of a list of numbers. -/
def npSort (l : List ℚ) : List ℚ := List.insertionSort (· ≤ ·) l

/-- `np.percentile(l, q)` with numpy's default linear interpolation:
`h = (n-1)·q/100`, and the result interpolates between the sorted values at
positions `⌊h⌋` and `⌊h⌋+1`.  Call sites are guarded against empty input. -/
def npPercentile (l : List ℚ) (q : ℚ) : ℚ :=
  let s := npSort l
  let n := l.length
  let h : ℚ := ((n : ℚ) - 1) * q / 100
  let lo : Nat := (⌊h⌋).toNat
  let base := s.getD lo 0
  base + (h - (lo : ℚ)) * (s.getD (lo + 1) base - base)

/-- `np.median` (equals the 50th percentile under linear interpolation). -/
def npMedian (l : List ℚ) : ℚ := npPercentile l 50

/-- `calculate_gini` (`pmoves_backend/metrics.py`, lines 14–25): clamp
negatives to 0, sort ascending, return 0 for empty input or zero
denominator, else `Σ((2·index − n − 1)·wealth) / (n · Σ wealth)` with
`index` running over `1..n`. -/
def calculateGini (wealthDistribution : List ℚ) : ℚ :=
  let wealthNonNegative := wealthDistribution.map (fun w => max 0 w)
  let wealth := npSort wealthNonNegative
  let n := wealth.length
  if n = 0 then 0
  else
    let denominator := (n : ℚ) * wealth.sum
    if denominator = 0 then 0
    else (∑ i ∈ Finset.range n, (2 * ((i : ℚ) + 1) - (n : ℚ) - 1) * wealth.getD i 0) / denominator

/-- The Gini formula exactly as the specification words it (spec section 4.4):
clamp negatives to 0, sort ascending; if the sequence is empty or the sum is
0 return 0; otherwise `Σ((2·rank − n − 1)·value) / (n · Σ value)` where
`rank` is the 1-based ascending position.  Stated over the enumerated sorted
list so that it is a formulation independent of `calculateGini`. -/
def giniSpecFormula (xs : List ℚ) : ℚ :=
  let sorted := npSort (xs.map (fun w => max 0 w))
  let n := sorted.length
  if xs = [] ∨ sorted.sum = 0 then 0
  else
    ((sorted.enum.map (fun rw => (2 * ((rw.1 : ℚ) + 1) - (n : ℚ) - 1) * rw.2)).sum)
      / ((n : ℚ) * sorted.sum)

/-- One simulated community member (`SimMember` in
`pmoves_backend/models.py`).  Balances and behavioural parameters as in
`__post_init__`; `internal_transaction_count` is the advanced-metrics
placeholder counter initialised to 0. -/
structure SimMember where
  id : String
  initialWealth : ℚ
  wealthScenarioA : ℚ
  wealthScenarioB : ℚ
  foodUsdBalance : ℚ
  grotokenBalance : ℚ
  weeklyFoodBudget : ℚ
  propensityToSpendInternal : ℚ
  weeklyIncome : ℚ
  internalTransactionCount : Nat
  grotokenUsageRate : ℚ
deriving DecidableEq

/-- `SimMember.__post_init__`: clamp the initial wealth into the three
balances, draw budget (floored at the configured minimum), internal-spend
propensity (clamped into `[0,1]`), income (floored at the minimum), then the
`grotoken_usage_rate = random.random() * 0.1` placeholder.  Four draws are
consumed, in that order. -/
def mkSimMember (p : Params) (u : Nat → ℚ) (idStr : String) (initialWealth : ℚ)
    (k : Nat) : SimMember × Nat :=
  let budget := gaussDraw u p.weeklyFoodBudgetAvg p.weeklyFoodBudgetStddev k
  let propensity := gaussDraw u p.percentSpendInternalAvg p.percentSpendInternalStddev budget.2
  let income := gaussDraw u p.weeklyIncomeAvg p.weeklyIncomeStddev propensity.2
  let usage := randomDraw u income.2
  ({ id := idStr
     initialWealth := initialWealth
     wealthScenarioA := max 0 initialWealth
     wealthScenarioB := max 0 initialWealth
     foodUsdBalance := max 0 initialWealth
     grotokenBalance := 0
     weeklyFoodBudget := max p.minWeeklyBudget budget.1
     propensityToSpendInternal := max 0 (min 1 propensity.1)
     weeklyIncome := max p.minWeeklyIncome income.1
     internalTransactionCount := 0
     grotokenUsageRate := usage.1 * (1 / 10) }, usage.2)

/-- `np.random.lognormal(mean, sigma, size)`: numpy validates `sigma`
upfront — its non-negativity constraint raises `ValueError: sigma < 0` for a
negative `sigma` regardless of `size`, even for `size = 0`, before any
allocation — then raises `ValueError` for a negative `size`, and otherwise
returns `size` draws (an empty array for size 0).  The draw values are taken
from the dedicated numpy stream `v`; their exact distribution
(`exp(mean + sigma·Z)`) is irrelevant to every claim because each use is
clamped with `max 0` immediately, so the mean parameter is unused in the
model. -/
def npLognormalDraws (_mean sigma : ℚ) (v : Nat → ℚ) (size : Int) :
    Except String (List ℚ) :=
  if sigma < 0 then .error "ValueError: sigma < 0"
  else if size < 0 then .error "ValueError: negative dimensions are not allowed"
  else .ok ((List.range size.toNat).map v)

/-- Builds `SimMember`s from the enumerated initial-wealth draws, threading
the `random`-module draw counter (`_initialize_members` list comprehension,
ids `M_0, M_1, ...`). -/
def buildMembers (p : Params) (u : Nat → ℚ) :
    List (Nat × ℚ) → Nat → List SimMember × Nat
  | [], k => ([], k)
  | (i, w) :: rest, k =>
    let m := mkSimMember p u ("M_" ++ toString i) w k
    let ms := buildMembers p u rest m.2
    (m.1 :: ms.1, ms.2)

/-- `_initialize_members` (`pmoves_backend/simulator.py`, lines 19–25): draw
`int(NUM_MEMBERS)` log-normal initial wealths, then construct the members.
Fails exactly when the numpy draw fails (negative size). -/
def initializeMembers (p : Params) (u v : Nat → ℚ) :
    Except String (List SimMember × Nat) :=
  (npLognormalDraws p.initialWealthMeanLog p.initialWealthSigmaLog v p.numMembers).map
    fun ws => buildMembers p u ws.enum 0

/-- The per-member weekly update, the body of the inner loop of
`run_simulation` (`pmoves_backend/simulator.py`, lines 52–93), line for
line.  One `random.gauss` draw (the GroToken reward) is consumed.  The
`except` branch of the source (lines 94–99) is unreachable in the rational
model — none of these operations can raise — so it is not represented. -/
def updateMember (p : Params) (u : Nat → ℚ) (m : SimMember) (k : Nat) :
    SimMember × Nat :=
  let wealthA1 := m.wealthScenarioA + m.weeklyIncome
  let food1 := m.foodUsdBalance + m.weeklyIncome
  let actualSpendingA := min m.weeklyFoodBudget wealthA1
  let wealthA2 := max 0 (wealthA1 - actualSpendingA)
  let budgetToSpend := m.weeklyFoodBudget
  let intendedSpendInternal := budgetToSpend * m.propensityToSpendInternal
  let intendedSpendExternal := budgetToSpend * (1 - m.propensityToSpendInternal)
  let avgInternalSavingsRate :=
    (p.groupBuySavingsPercent + p.localProductionSavingsPercent) / 2
  let effectiveCostInternal := intendedSpendInternal * (1 - avgInternalSavingsRate)
  let effectiveCostExternal := intendedSpendExternal
  let totalEffectiveCost := effectiveCostInternal + effectiveCostExternal
  let actualTotalSpendingB := min totalEffectiveCost food1
  let food2 := max 0 (food1 - actualTotalSpendingB)
  let actualCoopFee := min p.weeklyCoopFeeB food2
  let food3 := max 0 (food2 - actualCoopFee)
  let g := gaussDraw u p.grotokenRewardPerWeekAvg p.grotokenRewardStddev k
  let reward := max 0 g.1
  let grotoken1 := m.grotokenBalance + reward
  let currentWealthB := food3 + grotoken1 * p.grotokenUsdValue
  ({ m with
      wealthScenarioA := wealthA2
      foodUsdBalance := food3
      grotokenBalance := grotoken1
      wealthScenarioB := currentWealthB }, g.2)

/-- The inner `for member in members` loop of one simulated week: updates
each member in order and collects the two wealth snapshot lists
(`current_wealth_A_list`, `current_wealth_B_list`), threading the draw
counter. -/
def updateMembersWeek (p : Params) (u : Nat → ℚ) :
    List SimMember → Nat → List SimMember × List ℚ × List ℚ × Nat
  | [], k => ([], [], [], k)
  | m :: rest, k =>
    let m1 := updateMember p u m k
    let tail := updateMembersWeek p u rest m1.2
    (m1.1 :: tail.1, m1.1.wealthScenarioA :: tail.2.1,
      m1.1.wealthScenarioB :: tail.2.2.1, tail.2.2.2)

/-- One weekly metrics record — the dict built by
`EconomicMetrics.calculate_metrics` (`pmoves_backend/metrics.py`,
lines 37–87).  `WealthGap_*` can be `float('inf')` in the source, modelled
as `none`.  `RiskResilience` (the only indicator whose formula involves
`np.std`, a floating-point square root) is outside the rational embedding
and is omitted; no claim mentions it.  The `*_Trend` keys added from the
second week on are collected in `trends`. -/
structure MetricsRecord where
  week : Nat
  year : Nat
  quarter : Nat
  avgWealthA : ℚ
  avgWealthB : ℚ
  medianWealthA : ℚ
  medianWealthB : ℚ
  totalWealthA : ℚ
  totalWealthB : ℚ
  wealthQuintilesA : List ℚ
  wealthQuintilesB : List ℚ
  top10PercentA : ℚ
  top10PercentB : ℚ
  bottom10PercentA : ℚ
  bottom10PercentB : ℚ
  giniA : ℚ
  giniB : ℚ
  wealthGapA : Option ℚ
  wealthGapB : Option ℚ
  bottom20PctShare : ℚ
  povertyRateA : ℚ
  povertyRateB : ℚ
  wealthMobility : ℚ
  localEconomyStrength : ℚ
  communityResilience : ℚ
  economicVelocity : ℚ
  socialSafetyNet : ℚ
  innovationIndex : ℚ
  sustainabilityScore : ℚ
  communityEngagement : ℚ
  marketEfficiency : ℚ
  innovationAdoption : ℚ
  wealthMobilityScore : ℚ
  economicDiversity : ℚ
  trends : List (String × ℚ)
deriving DecidableEq

/-- `calculate_poverty_rate`: fraction of wealth values below four weekly
average food budgets; 0 on empty input. -/
def calculatePovertyRate (p : Params) (wealthList : List ℚ) : ℚ :=
  let povertyLine := p.weeklyFoodBudgetAvg * 4
  if wealthList = [] then 0
  else npMean (wealthList.map fun w => if w < povertyLine then 1 else 0)

/-- `calculate_wealth_mobility`: mean GroToken USD value over the members
(the member-level placeholder in the source); 0 for no members. -/
def calculateWealthMobility (p : Params) (ms : List SimMember) : ℚ :=
  if ms = [] then 0
  else npMean (ms.map fun m => m.grotokenBalance * p.grotokenUsdValue)

/-- `calculate_local_economy_strength`: mean internal-spend propensity; 0 for
no members. -/
def calculateLocalEconomyStrength (ms : List SimMember) : ℚ :=
  if ms = [] then 0 else npMean (ms.map (·.propensityToSpendInternal))

/-- `calculate_social_safety_net`: `1 − belowPoverty/N` against the
scenario-B wealth; 0 for no members. -/
def calculateSocialSafetyNet (p : Params) (ms : List SimMember) : ℚ :=
  let povertyLine := p.weeklyFoodBudgetAvg * 4
  if ms = [] then 0
  else 1 - ((ms.filter fun m => m.wealthScenarioB < povertyLine).length : ℚ) / (ms.length : ℚ)

/-- `calculate_community_resilience` (equal to the safety net in the final
version of the engine). -/
def calculateCommunityResilience (p : Params) (ms : List SimMember) : ℚ :=
  calculateSocialSafetyNet p ms

/-- `calculate_wealth_gap`: mean of the top 20% over mean of the bottom 20%
of the ascending-sorted negative-clamped values, with index cutoffs
`int(n·0.8)` and `int(n·0.2)`; `float('inf')` (here `none`) for fewer than 5
values or a bottom-20 mean `≤ 1e-6`. -/
def calculateWealthGap (wealthList : List ℚ) : Option ℚ :=
  if wealthList.length < 5 then none
  else
    let top20Idx := (⌊(wealthList.length : ℚ) * (8 / 10)⌋).toNat
    let bottom20Idx := (⌊(wealthList.length : ℚ) * (2 / 10)⌋).toNat
    let sortedWealth := npSort (wealthList.map fun w => max 0 w)
    let top20Mean := npMean (sortedWealth.drop top20Idx)
    let bottom20Mean := npMean (sortedWealth.take bottom20Idx)
    if bottom20Mean ≤ 1 / 1000000 then none
    else some (top20Mean / bottom20Mean)

/-- `calculate_bottom_20_pct_share`: bottom-20% sum over total clamped sum;
0 for fewer than 5 values or total `≤ 1e-6`. -/
def calculateBottom20PctShare (wealthList : List ℚ) : ℚ :=
  if wealthList.length < 5 then 0
  else
    let totalWealth := (wealthList.map fun w => max 0 w).sum
    if totalWealth ≤ 1 / 1000000 then 0
    else
      let sortedWealth := npSort (wealthList.map fun w => max 0 w)
      let bottom20Idx := (⌊(wealthList.length : ℚ) * (2 / 10)⌋).toNat
      (sortedWealth.take bottom20Idx).sum / totalWealth

/-- `calculate_economic_velocity`: mean internal-spend propensity (the
placeholder proxy in the source); 0 for no members. -/
def calculateEconomicVelocity (ms : List SimMember) : ℚ :=
  if ms = [] then 0 else npMean (ms.map (·.propensityToSpendInternal))

/-- `calculate_innovation_index`: mean of the GroToken-adoption indicator and
the local-economy strength; 0 for no members. -/
def calculateInnovationIndex (ms : List SimMember) : ℚ :=
  if ms = [] then 0
  else
    let grotokenAdoption := npMean (ms.map fun m => if 0 < m.grotokenBalance then (1 : ℚ) else 0)
    (grotokenAdoption + calculateLocalEconomyStrength ms) / 2

/-- `calculate_sustainability_score` (equal to the resilience). -/
def calculateSustainabilityScore (p : Params) (ms : List SimMember) : ℚ :=
  calculateCommunityResilience p ms

/-- `calculate_community_engagement`: mean internal-spend propensity; 0 for
no members. -/
def calculateCommunityEngagement (ms : List SimMember) : ℚ :=
  if ms = [] then 0 else npMean (ms.map (·.propensityToSpendInternal))

/-- `calculate_market_efficiency`: mean `internal_transaction_count` over the
members, divided by `max(1, current_week)`, times 10. -/
def calculateMarketEfficiency (ms : List SimMember) (currentWeek : Nat) : ℚ :=
  let avgInternalTx := npMean (ms.map fun m => (m.internalTransactionCount : ℚ))
  avgInternalTx / ((max 1 currentWeek : Nat) : ℚ) * 10

/-- `calculate_innovation_adoption`: mean `grotoken_usage_rate`. -/
def calculateInnovationAdoption (ms : List SimMember) : ℚ :=
  npMean (ms.map (·.grotokenUsageRate))

/-- `calculate_wealth_mobility_score`: the source returns
`random.random() * 0.4 + 0.1` — a pure random placeholder. -/
def calculateWealthMobilityScore (u : Nat → ℚ) (k : Nat) : ℚ × Nat :=
  let r := randomDraw u k
  (r.1 * (4 / 10) + 1 / 10, r.2)

/-- `calculate_economic_diversity`: the source returns
`random.random() * 0.5 + 0.4` — a pure random placeholder. -/
def calculateEconomicDiversity (u : Nat → ℚ) (k : Nat) : ℚ × Nat :=
  let r := randomDraw u k
  (r.1 * (5 / 10) + 4 / 10, r.2)

/-- One `<key>_Trend` value (`calculate_trends` body): relative change when
`|prev| > 1e-6`, else the sign of the raw difference. -/
def trendOf (prevValue currentValue : ℚ) : ℚ :=
  if 1 / 1000000 < |prevValue| then (currentValue - prevValue) / |prevValue|
  else if prevValue < currentValue then 1
  else if currentValue < prevValue then -1
  else 0

/-- `calculate_trends`: the ten tracked keys, in source order.  Every key is
present in every record, so the `else 0.0` branch of the source for missing
keys never fires. -/
def calculateTrends (prev current : MetricsRecord) : List (String × ℚ) :=
  [("AvgWealth_B_Trend", trendOf prev.avgWealthB current.avgWealthB),
   ("Gini_B_Trend", trendOf prev.giniB current.giniB),
   ("PovertyRate_B_Trend", trendOf prev.povertyRateB current.povertyRateB),
   ("LocalEconomyStrength_Trend",
     trendOf prev.localEconomyStrength current.localEconomyStrength),
   ("CommunityResilience_Trend",
     trendOf prev.communityResilience current.communityResilience),
   ("EconomicVelocity_Trend", trendOf prev.economicVelocity current.economicVelocity),
   ("SocialSafetyNet_Trend", trendOf prev.socialSafetyNet current.socialSafetyNet),
   ("InnovationIndex_Trend", trendOf prev.innovationIndex current.innovationIndex),
   ("SustainabilityScore_Trend",
     trendOf prev.sustainabilityScore current.sustainabilityScore),
   ("CommunityEngagement_Trend",
     trendOf prev.communityEngagement current.communityEngagement)]

/-- `EconomicMetrics.calculate_metrics` (`pmoves_backend/metrics.py`,
lines 37–87).  `prev` is the engine state `self.previous_metrics`.  On an
empty `wealth_A_list` (resp. `wealth_B_list`) the guarded quintile
expression produces a plain Python `[]`, and the later `.tolist()` on it
raises `AttributeError` — before the dict is returned and before the two
`random.random()` draws of `calculate_advanced_metrics` are consumed.  On
success the record and the advanced draw counter are returned. -/
def calculateMetrics (ms : List SimMember) (p : Params) (prev : Option MetricsRecord)
    (wealthAList wealthBList : List ℚ) (week : Nat) (u : Nat → ℚ) (k : Nat) :
    Except String (MetricsRecord × Nat) :=
  if wealthAList = [] then
    .error "AttributeError: list object has no attribute tolist"
  else if wealthBList = [] then
    .error "AttributeError: list object has no attribute tolist"
  else
    let mobility := calculateWealthMobilityScore u k
    let diversity := calculateEconomicDiversity u mobility.2
    let base : MetricsRecord :=
      { week := week
        year := week / 52 + 1
        quarter := week % 52 / 13 + 1
        avgWealthA := npMean wealthAList
        avgWealthB := npMean wealthBList
        medianWealthA := npMedian wealthAList
        medianWealthB := npMedian wealthBList
        totalWealthA := wealthAList.sum
        totalWealthB := wealthBList.sum
        wealthQuintilesA := [20, 40, 60, 80].map (npPercentile wealthAList)
        wealthQuintilesB := [20, 40, 60, 80].map (npPercentile wealthBList)
        top10PercentA := npPercentile wealthAList 90
        top10PercentB := npPercentile wealthBList 90
        bottom10PercentA := npPercentile wealthAList 10
        bottom10PercentB := npPercentile wealthBList 10
        giniA := calculateGini wealthAList
        giniB := calculateGini wealthBList
        wealthGapA := calculateWealthGap wealthAList
        wealthGapB := calculateWealthGap wealthBList
        bottom20PctShare := calculateBottom20PctShare wealthBList
        povertyRateA := calculatePovertyRate p wealthAList
        povertyRateB := calculatePovertyRate p wealthBList
        wealthMobility := calculateWealthMobility p ms
        localEconomyStrength := calculateLocalEconomyStrength ms
        communityResilience := calculateCommunityResilience p ms
        economicVelocity := calculateEconomicVelocity ms
        socialSafetyNet := calculateSocialSafetyNet p ms
        innovationIndex := calculateInnovationIndex ms
        sustainabilityScore := calculateSustainabilityScore p ms
        communityEngagement := calculateCommunityEngagement ms
        marketEfficiency := calculateMarketEfficiency ms week
        innovationAdoption := calculateInnovationAdoption ms
        wealthMobilityScore := mobility.1
        economicDiversity := diversity.1
        trends := [] }
    let record :=
      match prev with
      | none => base
      | some prevRecord => { base with trends := calculateTrends prevRecord base }
    .ok (record, diversity.2)

/-- A key event `{week, type, description}` appended by the simulation loop.
The `description` string is display text interpolating the threshold value;
it carries no further information and is not modelled. -/
structure KeyEvent where
  week : Nat
  eventType : String
deriving DecidableEq

/-- The events the loop appends for one new record `current` against the
previous week's record `prev` (`run_simulation`, lines 107–130):
an `equality_improvement` event when `Gini_B < prevGini_B * 0.95` and a
`poverty_reduction` event when `PovertyRate_B < prevPovertyRate_B * 0.9`,
in that order.  Both records always carry the two keys, so the `.get(k, 1)`
defaults of the source never fire.  `weekNumber` is the 1-based `week + 1`
of the loop. -/
def weekEvents (weekNumber : Nat) (prev current : MetricsRecord) : List KeyEvent :=
  (if current.giniB < prev.giniB * (95 / 100) then
    [{ week := weekNumber, eventType := "equality_improvement" }] else []) ++
  (if current.povertyRateB < prev.povertyRateB * (9 / 10) then
    [{ week := weekNumber, eventType := "poverty_reduction" }] else [])

/-- The mutable state of the simulation loop: the member list, the history
and key-event lists, the metrics engine's retained previous record, and the
`random`-module draw counter. -/
structure LoopState where
  members : List SimMember
  history : List MetricsRecord
  events : List KeyEvent
  prevMetrics : Option MetricsRecord
  k : Nat

/-- One iteration of the `for week in range(...)` loop of `run_simulation`
(week index `w`, 0-based): update every member, compute the week's metrics
(week number `w + 1`), and on success append the record and detect events
against `simulation_history[-2]`.  When the metrics computation raises, the
record is skipped (the `except` at lines 131–132) and the engine state and
draw counter are untouched — the failure happens before either is advanced.
When `w > 0` but the history was empty, the source's `simulation_history[-2]`
would raise `IndexError` inside the same `try`, after the append: the record
stays, no events are added — which is what the `none` branch produces. -/
def runWeek (p : Params) (u : Nat → ℚ) (w : Nat) (st : LoopState) : LoopState :=
  let step := updateMembersWeek p u st.members st.k
  let ms := step.1
  let wealthAList := step.2.1
  let wealthBList := step.2.2.1
  let k1 := step.2.2.2
  match calculateMetrics ms p st.prevMetrics wealthAList wealthBList (w + 1) u k1 with
  | .error _ => { st with members := ms, k := k1 }
  | .ok (record, k2) =>
    let newEvents :=
      if 0 < w then
        match st.history.getLast? with
        | some prevRecord => weekEvents (w + 1) prevRecord record
        | none => []
      else []
    { members := ms
      history := st.history ++ [record]
      events := st.events ++ newEvents
      prevMetrics := some record
      k := k2 }

/-- Runs the weekly loop for the first `n` week indices `0, 1, ..., n-1`. -/
def iterWeeks (p : Params) (u : Nat → ℚ) : Nat → LoopState → LoopState
  | 0, st => st
  | n + 1, st => runWeek p u n (iterWeeks p u n st)

/-- The loop state right after member initialization. -/
def initLoopState (p : Params) (u v : Nat → ℚ) : Except String LoopState :=
  (initializeMembers p u v).map fun ms =>
    { members := ms.1, history := [], events := [], prevMetrics := none, k := ms.2 }

/-- The loop state after the first `n` weeks of a run (setup errors
propagate). -/
def simStates (p : Params) (u v : Nat → ℚ) (n : Nat) : Except String LoopState :=
  (initLoopState p u v).map (iterWeeks p u n)

/-- The result bundle `run_simulation` returns: the history, the final member
snapshots (the source projects each member into a flat dict and round-trips
it through a DataFrame — an identity on the data — so the member list itself
stands for `final_members`), and the key events.  The narrative summary is
derived display text over `history` and `key_events` and is not modelled. -/
structure SimResults where
  history : List MetricsRecord
  finalMembers : List SimMember
  keyEvents : List KeyEvent
deriving DecidableEq

/-- `run_simulation` (`pmoves_backend/simulator.py`, lines 28–160): merge
over defaults is the caller's `sim_params` (already a full `Params` here),
initialise members (a failure escapes as the setup `ValueError`), run
`int(SIMULATION_WEEKS)` weeks (`Int.toNat`: a non-positive count runs no
weeks, as `range` does), then assemble the results. -/
def runSimulation (p : Params) (u v : Nat → ℚ) : Except String SimResults :=
  match initLoopState p u v with
  | .error e => .error ("Error during simulation setup: " ++ e)
  | .ok st0 =>
    let stN := iterWeeks p u p.simulationWeeks.toNat st0
    .ok { history := stN.history, finalMembers := stN.members, keyEvents := stN.events }

/-- The member list after `n` weeks of a run (empty when setup failed: a
failed setup creates no members). -/
def runMembersAfter (p : Params) (u v : Nat → ℚ) (n : Nat) : List SimMember :=
  ((simStates p u v n).map (·.members)).toOption.getD []

/-- The history after `n` weeks of a run (empty when setup failed). -/
def runHistoryAfter (p : Params) (u v : Nat → ℚ) (n : Nat) : List MetricsRecord :=
  ((simStates p u v n).map (·.history)).toOption.getD []

/-- The key events after `n` weeks of a run (empty when setup failed). -/
def runEventsAfter (p : Params) (u v : Nat → ℚ) (n : Nat) : List KeyEvent :=
  ((simStates p u v n).map (·.events)).toOption.getD []

/-- The events one adjacent pair of history records contributes under the
specification's wording of the policy, stamped with the newer record's
week. -/
def weekEventsSpec (prev current : MetricsRecord) : List KeyEvent :=
  (if current.giniB < prev.giniB * (95 / 100) then
    [{ week := current.week, eventType := "equality_improvement" }] else []) ++
  (if current.povertyRateB < prev.povertyRateB * (9 / 10) then
    [{ week := current.week, eventType := "poverty_reduction" }] else [])

/-- The event-detection policy as the specification words it (spec
section 4.5): walking the finished history, each adjacent pair of records
contributes an `equality_improvement` event when the newer `Gini_B` dropped
below 95% of the previous one and a `poverty_reduction` event when the newer
`PovertyRate_B` dropped below 90% of the previous one, stamped with the newer
record's week. -/
def eventsOfHistory : List MetricsRecord → List KeyEvent
  | [] => []
  | [_] => []
  | a :: b :: rest => weekEventsSpec a b ++ eventsOfHistory (b :: rest)

/-- All four member balances are non-negative (the invariant of spec
section 3). -/
def MemberNonneg (m : SimMember) : Prop :=
  0 ≤ m.wealthScenarioA ∧ 0 ≤ m.foodUsdBalance ∧
  0 ≤ m.grotokenBalance ∧ 0 ≤ m.wealthScenarioB

instance (m : SimMember) : Decidable (MemberNonneg m) := by
  unfold MemberNonneg; infer_instance

/-- Modelled from the spec (section 4.3, wealth mobility): a member's
percentile rank within a wealth list under the average-rank method on a
0..1 scale — the mean of the 1-based sorted positions of the ties of `x`,
divided by the population size.  This is the
`pandas.Series.rank(method=average, pct=True)` the repository's own test
suite (`tests/test_economic_metrics.py`) uses as the reference. -/
def percentileRankPct (l : List ℚ) (x : ℚ) : ℚ :=
  ((2 * (l.filter fun y => y < x).length + (l.filter fun y => y = x).length + 1 : ℕ) : ℚ)
    / (2 * (l.length : ℚ))

/-- Modelled from the spec (section 4.3): `WealthMobilityScore` = the mean of
only the positive deltas between each member's current wealth-B percentile
rank and the percentile rank of its initial wealth, 0 if none are positive.
This formula is absent from the source (`calculate_wealth_mobility_score` is
a random placeholder); it exists here as the spec-side reference the claim
compares against. -/
def wealthMobilityScoreSpec (ms : List SimMember) : ℚ :=
  let initialW := ms.map (·.initialWealth)
  let currentW := ms.map (·.wealthScenarioB)
  let deltas := ms.map fun m =>
    percentileRankPct currentW m.wealthScenarioB - percentileRankPct initialW m.initialWealth
  let positives := deltas.filter fun d => 0 < d
  if positives = [] then 0 else positives.sum / (positives.length : ℚ)

/-- Modelled from the spec (section 4.2, steps 1–3): the week's actual
internal spend of a member — the intended internal share of the
effective cost, prorated by how much of the total effective cost the
member could afford.  This quantity is never computed by the source loop;
it exists here as the spec-side reference for the transaction-count claim. -/
def actualInternalSpendSpec (p : Params) (m : SimMember) : ℚ :=
  let food1 := m.foodUsdBalance + m.weeklyIncome
  let intendedInternal := m.weeklyFoodBudget * m.propensityToSpendInternal
  let intendedExternal := m.weeklyFoodBudget * (1 - m.propensityToSpendInternal)
  let avgRate := (p.groupBuySavingsPercent + p.localProductionSavingsPercent) / 2
  let effectiveInternal := intendedInternal * (1 - avgRate)
  let totalEffectiveCost := effectiveInternal + intendedExternal
  let actualTotalSpend := min totalEffectiveCost food1
  if 0 < totalEffectiveCost then effectiveInternal * (actualTotalSpend / totalEffectiveCost)
  else 0

/-- The all-zero draw stream: every Gaussian draw returns its mean, every
`random.random()` draw returns 0, every initial-wealth draw is 0. -/
def zeroStream : Nat → ℚ := fun _ => 0

/-- A concrete one-member, one-week configuration satisfying the documented
constraints (the default parameter values of `DEFAULT_PARAMS`, with
`NUM_MEMBERS = 1`, `SIMULATION_WEEKS = 1` and a rational stand-in for the
log-normal mean). -/
def pOne : Params :=
  { numMembers := 1
    simulationWeeks := 1
    initialWealthMeanLog := 7
    initialWealthSigmaLog := 6 / 10
    weeklyFoodBudgetAvg := 75
    weeklyFoodBudgetStddev := 15
    minWeeklyBudget := 20
    weeklyIncomeAvg := 150
    weeklyIncomeStddev := 40
    minWeeklyIncome := 0
    groupBuySavingsPercent := 15 / 100
    localProductionSavingsPercent := 25 / 100
    percentSpendInternalAvg := 60 / 100
    percentSpendInternalStddev := 20 / 100
    grotokenRewardPerWeekAvg := 1 / 2
    grotokenRewardStddev := 1 / 5
    grotokenUsdValue := 2
    weeklyCoopFeeB := 1 }

/-- `pOne` with a zero member count (`NUM_MEMBERS = 0`). -/
def pZeroMembers : Params := { pOne with numMembers := 0 }

/-- `pOne` with a negative member count. -/
def pNegMembers : Params := { pOne with numMembers := -1 }

/-- `pOne` with a negative `INITIAL_WEALTH_SIGMA_LOG`. -/
def pNegSigma : Params := { pOne with initialWealthSigmaLog := -1 }

/-! ## Lemmas about sums over indexed lists -/

theorem sum_range_getD (l : List ℚ) :
    ∑ i ∈ Finset.range l.length, l.getD i 0 = l.sum := by
  induction l with
  | nil => simp
  | cons a l ih =>
    rw [List.length_cons, Finset.sum_range_succ']
    simp only [List.getD_cons_succ, List.getD_cons_zero, List.sum_cons, ih, add_comm]

theorem sum_map_enumFrom (f : ℕ → ℚ → ℚ) (l : List ℚ) (k : ℕ) :
    ((List.enumFrom k l).map fun rw => f rw.1 rw.2).sum =
      ∑ i ∈ Finset.range l.length, f (k + i) (l.getD i 0) := by
  induction l generalizing k with
  | nil => simp
  | cons a l ih =>
    rw [List.enumFrom_cons, List.map_cons, List.sum_cons, List.length_cons,
      Finset.sum_range_succ']
    simp only [List.getD_cons_succ, List.getD_cons_zero, Nat.add_zero]
    rw [ih (k + 1), add_comm]
    congr 1
    exact Finset.sum_congr rfl fun i _ => by congr 1; omega

theorem sum_range_add_one_mul_two (n : ℕ) :
    (∑ i ∈ Finset.range n, ((i : ℚ) + 1)) * 2 = n * (n + 1) := by
  induction n with
  | zero => simp
  | succ n ih =>
    rw [Finset.sum_range_succ, add_mul, ih]
    push_cast
    ring

/-! ## Facts about the sorted clamped list inside `calculateGini` -/

theorem npSort_length (l : List ℚ) : (npSort l).length = l.length :=
  List.length_insertionSort _ l

theorem npSort_sorted (l : List ℚ) : List.Sorted (· ≤ ·) (npSort l) :=
  List.sorted_insertionSort _ l

theorem npSort_sum (l : List ℚ) : (npSort l).sum = l.sum :=
  (List.perm_insertionSort _ l).sum_eq

theorem mem_npSort_clamped_nonneg (l : List ℚ) (x : ℚ)
    (hx : x ∈ npSort (l.map fun w => max 0 w)) : 0 ≤ x := by
  have hx' : x ∈ l.map fun w => max 0 w := (List.perm_insertionSort _ _).mem_iff.mp hx
  obtain ⟨y, _, rfl⟩ := List.mem_map.mp hx'
  exact le_max_left 0 y

theorem sorted_getD_mono {s : List ℚ} (hs : List.Sorted (· ≤ ·) s) {i j : ℕ}
    (hij : i ≤ j) (hj : j < s.length) : s.getD i 0 ≤ s.getD j 0 := by
  rw [List.getD_eq_getElem s 0 (lt_of_le_of_lt hij hj), List.getD_eq_getElem s 0 hj]
  exact hs.rel_get_of_le (a := ⟨i, lt_of_le_of_lt hij hj⟩) (b := ⟨j, hj⟩) hij

/-- The Gini numerator over a sorted non-negative list is non-negative: this
is Chebyshev's sum inequality applied to the rank sequence and the sorted
values. -/
theorem gini_numerator_nonneg (s : List ℚ) (hs : List.Sorted (· ≤ ·) s)
    (hn : s.length ≠ 0) :
    0 ≤ ∑ i ∈ Finset.range s.length,
      (2 * ((i : ℚ) + 1) - (s.length : ℚ) - 1) * s.getD i 0 := by
  set n := s.length with hn_def
  set g : ℕ → ℚ := fun i => s.getD i 0 with hg
  have hmono : MonovaryOn (fun i : ℕ => ((i : ℚ) + 1)) g (Finset.range n) := by
    intro i hi j hj hlt
    rcases le_or_lt i j with h | h
    · show (i : ℚ) + 1 ≤ (j : ℚ) + 1
      have : (i : ℚ) ≤ (j : ℚ) := by exact_mod_cast h
      linarith
    · exact absurd (sorted_getD_mono hs h.le (Finset.mem_range.mp hi)) (not_le.mpr hlt)
  have hcheb := hmono.sum_mul_sum_le_card_mul_sum
  rw [Finset.card_range] at hcheb
  have hgauss := sum_range_add_one_mul_two n
  have hrw : ∀ i ∈ Finset.range n,
      (2 * ((i : ℚ) + 1) - (n : ℚ) - 1) * g i =
        2 * (((i : ℚ) + 1) * g i) - ((n : ℚ) + 1) * g i := fun i _ => by ring
  rw [Finset.sum_congr rfl hrw, Finset.sum_sub_distrib, ← Finset.mul_sum, ← Finset.mul_sum]
  have hnpos : (0 : ℚ) < n := by
    exact_mod_cast Nat.pos_of_ne_zero hn
  set S := ∑ i ∈ Finset.range n, g i with hS
  set T := ∑ i ∈ Finset.range n, ((i : ℚ) + 1) * g i with hT
  set A := ∑ i ∈ Finset.range n, ((i : ℚ) + 1) with hA
  have step1 : (n : ℚ) * (((n : ℚ) + 1) * S) ≤ (n : ℚ) * (2 * T) := by
    have h2 : 2 * (A * S) ≤ 2 * ((n : ℚ) * T) := by linarith
    calc (n : ℚ) * (((n : ℚ) + 1) * S) = (A * 2) * S := by rw [hgauss]; ring
      _ = 2 * (A * S) := by ring
      _ ≤ 2 * ((n : ℚ) * T) := h2
      _ = (n : ℚ) * (2 * T) := by ring
  have step2 := le_of_mul_le_mul_left step1 hnpos
  linarith

/-- The Gini numerator is at most `n` times the sum, for a non-negative
list. -/
theorem gini_numerator_le (s : List ℚ) (hnn : ∀ x ∈ s, 0 ≤ x) :
    (∑ i ∈ Finset.range s.length,
        (2 * ((i : ℚ) + 1) - (s.length : ℚ) - 1) * s.getD i 0) ≤
      (s.length : ℚ) * s.sum := by
  set n := s.length with hn_def
  have hsum : (0 : ℚ) ≤ s.sum := List.sum_nonneg hnn
  have hterm : ∀ i ∈ Finset.range n,
      (2 * ((i : ℚ) + 1) - (n : ℚ) - 1) * s.getD i 0 ≤ (n : ℚ) * s.getD i 0 := by
    intro i hi
    have hi' : i < n := Finset.mem_range.mp hi
    have hgd : 0 ≤ s.getD i 0 := by
      rcases lt_or_ge i s.length with h | h
      · exact hnn _ (List.getD_eq_getElem s 0 h ▸ List.getElem_mem h)
      · rw [List.getD_eq_default s 0 h]
    have hcoef : 2 * ((i : ℚ) + 1) - (n : ℚ) - 1 ≤ (n : ℚ) := by
      have h1 : i + 1 ≤ n := hi'
      have : (i : ℚ) + 1 ≤ (n : ℚ) := by exact_mod_cast h1
      linarith
    exact mul_le_mul_of_nonneg_right hcoef hgd
  calc (∑ i ∈ Finset.range n, (2 * ((i : ℚ) + 1) - (n : ℚ) - 1) * s.getD i 0)
      ≤ ∑ i ∈ Finset.range n, (n : ℚ) * s.getD i 0 := Finset.sum_le_sum hterm
    _ = (n : ℚ) * s.sum := by rw [← Finset.mul_sum, hn_def, sum_range_getD]

/-- `calculateGini` always lands in `[0, 1]` (the source clamps negatives
itself, so no hypothesis on the input is needed). -/
theorem calculateGini_mem_unit (xs : List ℚ) :
    0 ≤ calculateGini xs ∧ calculateGini xs ≤ 1 := by
  unfold calculateGini
  set s := npSort (xs.map fun w => max 0 w) with hs_def
  by_cases h0 : s.length = 0
  · simp [h0]
  · rw [if_neg h0]
    by_cases hd : (s.length : ℚ) * s.sum = 0
    · rw [if_pos hd]; norm_num
    · rw [if_neg hd]
      have hnn : ∀ x ∈ s, 0 ≤ x := fun x hx => mem_npSort_clamped_nonneg xs x hx
      have hsum_nonneg : (0 : ℚ) ≤ s.sum := List.sum_nonneg hnn
      have hnpos : (0 : ℚ) < (s.length : ℚ) := by
        exact_mod_cast Nat.pos_of_ne_zero h0
      have hdpos : 0 < (s.length : ℚ) * s.sum :=
        lt_of_le_of_ne (mul_nonneg hnpos.le hsum_nonneg) (Ne.symm hd)
      constructor
      · exact div_nonneg
          (gini_numerator_nonneg s (hs_def ▸ npSort_sorted _) h0) hdpos.le
      · rw [div_le_one hdpos]
        exact gini_numerator_le s hnn

theorem calculateGini_nil : calculateGini [] = 0 := rfl

theorem calculateGini_single (x : ℚ) : calculateGini [x] = 0 := by
  unfold calculateGini
  dsimp only
  have hsort : npSort ([x].map fun w => max 0 w) = [max 0 x] := rfl
  rw [hsort]
  simp only [List.length_singleton, List.sum_cons, List.sum_nil, add_zero, Nat.cast_one]
  rw [if_neg (by norm_num : (1 : ℕ) ≠ 0)]
  rcases eq_or_ne ((1 : ℚ) * max 0 x) 0 with hd | hd
  · rw [if_pos hd]
  · rw [if_neg hd]
    have hnum : (∑ i ∈ Finset.range 1,
        (2 * ((i : ℚ) + 1) - 1 - 1) * ([max 0 x].getD i 0)) = 0 := by
      rw [Finset.sum_range_one]
      norm_num
    rw [hnum, zero_div]

theorem calculateGini_replicate (x : ℚ) (hx : 0 < x) (n : ℕ) :
    calculateGini (List.replicate n x) = 0 := by
  unfold calculateGini
  dsimp only
  have hmap : (List.replicate n x).map (fun w => max 0 w) = List.replicate n x := by
    rw [List.map_replicate, max_eq_right hx.le]
  rw [hmap]
  have hsort : npSort (List.replicate n x) = List.replicate n x :=
    List.perm_replicate.mp (List.perm_insertionSort _ _)
  rw [hsort, List.length_replicate]
  cases n with
  | zero => simp
  | succ m =>
    rw [if_neg (Nat.succ_ne_zero m)]
    rcases eq_or_ne (((m + 1 : ℕ) : ℚ) * (List.replicate (m + 1) x).sum) 0 with hd | hd
    · rw [if_pos hd]
    · rw [if_neg hd]
      have hgetD : ∀ i ∈ Finset.range (m + 1),
          (2 * ((i : ℚ) + 1) - ((m + 1 : ℕ) : ℚ) - 1) * (List.replicate (m + 1) x).getD i 0 =
            (2 * ((i : ℚ) + 1) - ((m + 1 : ℕ) : ℚ) - 1) * x := by
        intro i hi
        have hi' : i < (List.replicate (m + 1) x).length := by
          rw [List.length_replicate]; exact Finset.mem_range.mp hi
        rw [List.getD_eq_getElem _ 0 hi', List.getElem_replicate]
      have hsum0 : (∑ i ∈ Finset.range (m + 1),
          (2 * ((i : ℚ) + 1) - ((m + 1 : ℕ) : ℚ) - 1)) = 0 := by
        have h2 := sum_range_add_one_mul_two (m + 1)
        have hexp : ∀ i ∈ Finset.range (m + 1),
            (2 * ((i : ℚ) + 1) - ((m + 1 : ℕ) : ℚ) - 1) =
              2 * ((i : ℚ) + 1) - (((m + 1 : ℕ) : ℚ) + 1) := fun i _ => by ring
        rw [Finset.sum_congr rfl hexp, Finset.sum_sub_distrib, ← Finset.mul_sum,
          Finset.sum_const, Finset.card_range, nsmul_eq_mul]
        linarith [h2]
      rw [Finset.sum_congr rfl hgetD, ← Finset.sum_mul, hsum0, zero_mul, zero_div]

/-- C2: `calculate_gini`, applied to any finite sequence of wealth values
(negatives allowed), first clamps negatives to 0 and sorts ascending; it
returns 0 when the sequence is empty or the clamped sum is 0, and otherwise
returns exactly `Σ((2·rank − n − 1)·value) / (n · Σ value)` with `rank` the
1-based ascending position — stated as equality with the formula
transcribed independently from the specification's words. -/
theorem claim_C2_gini_formula (xs : List ℚ) : calculateGini xs = giniSpecFormula xs := by
  unfold calculateGini giniSpecFormula
  set s := npSort (xs.map fun w => max 0 w) with hs
  have hlen : s.length = xs.length := by rw [hs, npSort_length, List.length_map]
  by_cases hxs : xs = []
  · subst hxs
    simp [hs, npSort]
  · have hne : s.length ≠ 0 := by
      rw [hlen]
      exact fun h => hxs (List.length_eq_zero.mp h)
    rw [if_neg hne]
    by_cases hsum : s.sum = 0
    · rw [if_pos (by rw [hsum, mul_zero]), if_pos (Or.inr hsum)]
    · rw [if_neg (mul_ne_zero (Nat.cast_ne_zero.mpr hne) hsum),
        if_neg (by rintro (h | h); exact hxs h; exact hsum h)]
      congr 1
      have henum : s.enum = List.enumFrom 0 s := rfl
      rw [henum, sum_map_enumFrom (fun r w => (2 * ((r : ℚ) + 1) - (s.length : ℚ) - 1) * w) s 0]
      exact Finset.sum_congr rfl fun i _ => by rw [Nat.zero_add]

/-- C3: for every list of non-negative wealth values `calculate_gini`
returns a result in `[0,1]`; for every constant list of a positive value it
returns 0; and for the empty list and any single-element list it
returns 0. -/
theorem claim_C3_gini_range :
    (∀ xs : List ℚ, (∀ x ∈ xs, 0 ≤ x) →
      0 ≤ calculateGini xs ∧ calculateGini xs ≤ 1) ∧
    (∀ x : ℚ, 0 < x → ∀ n : ℕ, calculateGini (List.replicate n x) = 0) ∧
    calculateGini [] = 0 ∧ (∀ x : ℚ, calculateGini [x] = 0) :=
  ⟨fun xs _ => calculateGini_mem_unit xs,
   fun x hx n => calculateGini_replicate x hx n,
   calculateGini_nil, calculateGini_single⟩

theorem unitTripleNonneg : ∀ x ∈ ([10, 20, 30] : List ℚ), 0 ≤ x := by norm_num

theorem fivePos : (0 : ℚ) < 5 := by norm_num

theorem claim_C3_gini_range_witness :
    (0 ≤ calculateGini [10, 20, 30] ∧ calculateGini [10, 20, 30] ≤ 1) ∧
    calculateGini (List.replicate 4 5) = 0 ∧
    calculateGini [] = 0 ∧ calculateGini [7] = 0 :=
  ⟨claim_C3_gini_range.1 [10, 20, 30] unitTripleNonneg,
   claim_C3_gini_range.2.1 5 fivePos 4,
   claim_C3_gini_range.2.2.1,
   claim_C3_gini_range.2.2.2 7⟩

/-! ## Non-negativity of member balances (claim C1) -/

theorem mkSimMember_nonneg (p : Params) (u : Nat → ℚ) (s : String) (w : ℚ) (k : Nat) :
    MemberNonneg (mkSimMember p u s w k).1 := by
  unfold mkSimMember MemberNonneg
  dsimp only
  exact ⟨le_max_left 0 _, le_max_left 0 _, le_refl 0, le_max_left 0 _⟩

theorem updateMember_nonneg (p : Params) (u : Nat → ℚ) (m : SimMember) (k : Nat)
    (hv : 0 ≤ p.grotokenUsdValue) (hm : MemberNonneg m) :
    MemberNonneg (updateMember p u m k).1 := by
  obtain ⟨hA, hF, hG, hB⟩ := hm
  unfold updateMember MemberNonneg
  dsimp only
  refine ⟨le_max_left 0 _, le_max_left 0 _, ?_, ?_⟩
  · exact add_nonneg hG (le_max_left 0 _)
  · exact add_nonneg (le_max_left 0 _)
      (mul_nonneg (add_nonneg hG (le_max_left 0 _)) hv)

theorem buildMembers_nonneg (p : Params) (u : Nat → ℚ) :
    ∀ (l : List (Nat × ℚ)) (k : Nat), ∀ m ∈ (buildMembers p u l k).1, MemberNonneg m := by
  intro l
  induction l with
  | nil => intro k m hm; simp [buildMembers] at hm
  | cons iw rest ih =>
    intro k m hm
    obtain ⟨i, w⟩ := iw
    rw [buildMembers] at hm
    rcases List.mem_cons.mp hm with h | h
    · exact h ▸ mkSimMember_nonneg p u _ w k
    · exact ih _ m h

theorem updateMembersWeek_nonneg (p : Params) (u : Nat → ℚ)
    (hv : 0 ≤ p.grotokenUsdValue) :
    ∀ (ms : List SimMember) (k : Nat), (∀ m ∈ ms, MemberNonneg m) →
      ∀ m ∈ (updateMembersWeek p u ms k).1, MemberNonneg m := by
  intro ms
  induction ms with
  | nil => intro k h m hm; simp [updateMembersWeek] at hm
  | cons m0 rest ih =>
    intro k h m hm
    rw [updateMembersWeek] at hm
    rcases List.mem_cons.mp hm with hEq | hMem
    · exact hEq ▸ updateMember_nonneg p u m0 k hv (h m0 (List.mem_cons_self m0 rest))
    · exact ih _ (fun x hx => h x (List.mem_cons_of_mem m0 hx)) m hMem

theorem runWeek_members (p : Params) (u : Nat → ℚ) (w : Nat) (st : LoopState) :
    (runWeek p u w st).members = (updateMembersWeek p u st.members st.k).1 := by
  unfold runWeek
  dsimp only
  split <;> rfl

theorem iterWeeks_members_nonneg (p : Params) (u : Nat → ℚ)
    (hv : 0 ≤ p.grotokenUsdValue) :
    ∀ (n : Nat) (st : LoopState), (∀ m ∈ st.members, MemberNonneg m) →
      ∀ m ∈ (iterWeeks p u n st).members, MemberNonneg m := by
  intro n
  induction n with
  | zero => intro st h; exact h
  | succ n ih =>
    intro st h m hm
    rw [iterWeeks, runWeek_members] at hm
    exact updateMembersWeek_nonneg p u hv _ _ (ih st h) m hm

/-- C1: for every configuration satisfying the documented constraints
(savings/propensity parameters in `[0,1]`, fee/income/budget parameters
`≥ 0`) and every number of weeks, after every weekly member update each
member's `wealth_scenario_A`, `food_usd_balance`, `grotoken_balance` and
`wealth_scenario_B` are all `≥ 0` — spending and the co-op fee are capped at
the available balance and the token reward added is never negative.  Stated
for all draw streams, so it covers every possible random draw. -/
theorem claim_C1_balances_nonneg (p : Params) (hp : ParamsValid p) (u v : Nat → ℚ)
    (n : Nat) :
    ((runMembersAfter p u v n).all fun m => decide (MemberNonneg m)) = true := by
  rw [List.all_eq_true]
  intro m hm
  rw [decide_eq_true_eq]
  obtain ⟨_, _, _, _, _, _, _, _, _, _, _, _, _, _, _, _, hv, _⟩ := hp
  unfold runMembersAfter simStates initLoopState at hm
  cases hinit : initializeMembers p u v with
  | error e => rw [hinit] at hm; simp [Except.map, Except.toOption] at hm
  | ok msk =>
    rw [hinit] at hm
    simp only [Except.map, Except.toOption, Option.getD] at hm
    refine iterWeeks_members_nonneg p u hv n _ ?_ m hm
    intro x hx
    unfold initializeMembers at hinit
    cases hdraws : npLognormalDraws p.initialWealthMeanLog p.initialWealthSigmaLog
        v p.numMembers with
    | error e => rw [hdraws] at hinit; simp [Except.map] at hinit
    | ok ws =>
      rw [hdraws] at hinit
      simp only [Except.map, Except.ok.injEq] at hinit
      subst hinit
      exact buildMembers_nonneg p u _ _ x hx

theorem pOne_valid : ParamsValid pOne := by
  unfold ParamsValid pOne
  norm_num

theorem claim_C1_balances_nonneg_witness :
    ParamsValid pOne ∧
      ((runMembersAfter pOne zeroStream zeroStream 3).all fun m =>
        decide (MemberNonneg m)) = true :=
  ⟨pOne_valid, claim_C1_balances_nonneg pOne pOne_valid zeroStream zeroStream 3⟩

/-- C4: running the simulation twice with the same seeded random-number
source (the same two draw streams) and identical parameters produces
identical output — the whole per-week metrics sequence is a deterministic
function of the configuration and the RNG state. -/
theorem claim_C4_determinism (p₁ p₂ : Params) (u₁ u₂ v₁ v₂ : Nat → ℚ)
    (hp : p₁ = p₂) (hu : u₁ = u₂) (hv : v₁ = v₂) :
    runSimulation p₁ u₁ v₁ = runSimulation p₂ u₂ v₂ := by
  subst hp hu hv
  rfl

theorem claim_C4_determinism_witness :
    runSimulation pOne zeroStream zeroStream = runSimulation pOne zeroStream zeroStream :=
  claim_C4_determinism pOne pOne zeroStream zeroStream zeroStream zeroStream rfl rfl rfl

/-- C9: `calculate_metrics` called with empty wealth lists raises — every run
reaches the `.tolist()` call on the plain-list fallback of the quintile
guard, for any member list, engine state, week and draw state — instead of
returning a well-formed all-zero record. -/
theorem claim_C9_empty_metrics_raises (ms : List SimMember) (p : Params)
    (prev : Option MetricsRecord) (week : Nat) (u : Nat → ℚ) (k : Nat) :
    calculateMetrics ms p prev [] [] week u k =
      .error "AttributeError: list object has no attribute tolist" := rfl

/-! ## Setup failure behaviour (claim C8) -/

theorem runWeek_emptyMembers (p : Params) (u : Nat → ℚ) (w : Nat) :
    runWeek p u w { members := [], history := [], events := [], prevMetrics := none, k := 0 } =
      { members := [], history := [], events := [], prevMetrics := none, k := 0 } := rfl

theorem iterWeeks_emptyMembers (p : Params) (u : Nat → ℚ) (n : Nat) :
    iterWeeks p u n { members := [], history := [], events := [], prevMetrics := none, k := 0 } =
      { members := [], history := [], events := [], prevMetrics := none, k := 0 } := by
  induction n with
  | zero => rfl
  | succ n ih => rw [iterWeeks, ih, runWeek_emptyMembers]

theorem runSimulation_sigmaNeg (p : Params) (u v : Nat → ℚ)
    (hs : p.initialWealthSigmaLog < 0) :
    runSimulation p u v =
      .error "Error during simulation setup: ValueError: sigma < 0" := by
  unfold runSimulation initLoopState initializeMembers npLognormalDraws
  rw [if_pos hs]
  rfl

theorem runSimulation_sizeNeg (p : Params) (u v : Nat → ℚ)
    (hs : 0 ≤ p.initialWealthSigmaLog) (hneg : p.numMembers < 0) :
    runSimulation p u v =
      .error "Error during simulation setup: ValueError: negative dimensions are not allowed" := by
  unfold runSimulation initLoopState initializeMembers npLognormalDraws
  rw [if_neg (not_lt.mpr hs), if_pos hneg]
  rfl

theorem runSimulation_zeroMembers (p : Params) (u v : Nat → ℚ)
    (hs : 0 ≤ p.initialWealthSigmaLog) (hzero : p.numMembers = 0) :
    runSimulation p u v = .ok { history := [], finalMembers := [], keyEvents := [] } := by
  have hinit : initLoopState p u v =
      .ok { members := [], history := [], events := [], prevMetrics := none, k := 0 } := by
    unfold initLoopState initializeMembers npLognormalDraws
    rw [hzero, if_neg (not_lt.mpr hs), if_neg (by norm_num : ¬(0 : Int) < 0)]
    rfl
  unfold runSimulation
  rw [hinit]
  dsimp only
  rw [iterWeeks_emptyMembers]

/-- C8 (corrected): member initialization fails with a setup error — the
`ValueError` that escapes `run_simulation` before any week runs — when the
requested member count is negative (numpy rejects a negative `size`), and
also when `INITIAL_WEALTH_SIGMA_LOG` is negative (numpy validates `sigma`
upfront, even for `size = 0`); a member count of zero with a non-negative
sigma — in particular under the documented constraints — is accepted,
produces no members, and the run completes normally with empty history,
member table and event list.  Configuration fields can never be missing
because `run_simulation` merges the caller's parameters over
`DEFAULT_PARAMS` (a full `Params` here), and non-finite values do not exist
in the rational model. -/
theorem claim_C8_setup_failure (p : Params) (u v : Nat → ℚ) :
    (0 ≤ p.initialWealthSigmaLog → p.numMembers < 0 →
      runSimulation p u v =
        .error "Error during simulation setup: ValueError: negative dimensions are not allowed") ∧
    (p.initialWealthSigmaLog < 0 →
      runSimulation p u v =
        .error "Error during simulation setup: ValueError: sigma < 0") ∧
    (0 ≤ p.initialWealthSigmaLog → p.numMembers = 0 →
      runSimulation p u v = .ok { history := [], finalMembers := [], keyEvents := [] }) :=
  ⟨fun hs hneg => runSimulation_sizeNeg p u v hs hneg,
   fun hs => runSimulation_sigmaNeg p u v hs,
   fun hs hzero => runSimulation_zeroMembers p u v hs hzero⟩

theorem pNegMembersSigmaNonneg : 0 ≤ pNegMembers.initialWealthSigmaLog := by
  norm_num [pNegMembers, pOne]

theorem pZeroMembersSigmaNonneg : 0 ≤ pZeroMembers.initialWealthSigmaLog := by
  norm_num [pZeroMembers, pOne]

theorem pNegSigmaIsNeg : pNegSigma.initialWealthSigmaLog < 0 := by
  norm_num [pNegSigma]

theorem claim_C8_setup_failure_witness :
    runSimulation pNegMembers zeroStream zeroStream =
      .error "Error during simulation setup: ValueError: negative dimensions are not allowed" ∧
    runSimulation pNegSigma zeroStream zeroStream =
      .error "Error during simulation setup: ValueError: sigma < 0" ∧
    runSimulation pZeroMembers zeroStream zeroStream =
      .ok { history := [], finalMembers := [], keyEvents := [] } :=
  ⟨(claim_C8_setup_failure pNegMembers zeroStream zeroStream).1
      pNegMembersSigmaNonneg (by decide),
   (claim_C8_setup_failure pNegSigma zeroStream zeroStream).2.1 pNegSigmaIsNeg,
   (claim_C8_setup_failure pZeroMembers zeroStream zeroStream).2.2
      pZeroMembersSigmaNonneg (by decide)⟩

/-- C8 (counterexample to the claim as stated): for `NUM_MEMBERS = 0` —
which the claim asserts must fail with a setup error — `run_simulation`
succeeds: numpy happily returns an empty draw array for `size = 0` (the
sigma of this configuration is the default 0.6, so its upfront check
passes), zero members are created, every weekly metrics computation fails
silently inside the loop, and an empty result bundle is returned. -/
theorem claim_C8_counterexample :
    runSimulation pZeroMembers zeroStream zeroStream =
      .ok { history := [], finalMembers := [], keyEvents := [] } :=
  runSimulation_zeroMembers pZeroMembers zeroStream zeroStream
    pZeroMembersSigmaNonneg rfl

/-! ## The transaction counter is never incremented (claims C7, C10) -/

theorem updateMember_count (p : Params) (u : Nat → ℚ) (m : SimMember) (k : Nat) :
    (updateMember p u m k).1.internalTransactionCount = m.internalTransactionCount := rfl

theorem buildMembers_count (p : Params) (u : Nat → ℚ) :
    ∀ (l : List (Nat × ℚ)) (k : Nat), ∀ m ∈ (buildMembers p u l k).1,
      m.internalTransactionCount = 0 := by
  intro l
  induction l with
  | nil => intro k m hm; simp [buildMembers] at hm
  | cons iw rest ih =>
    intro k m hm
    obtain ⟨i, w⟩ := iw
    rw [buildMembers] at hm
    rcases List.mem_cons.mp hm with h | h
    · subst h; rfl
    · exact ih _ m h

theorem updateMembersWeek_count (p : Params) (u : Nat → ℚ) :
    ∀ (ms : List SimMember) (k : Nat), (∀ m ∈ ms, m.internalTransactionCount = 0) →
      ∀ m ∈ (updateMembersWeek p u ms k).1, m.internalTransactionCount = 0 := by
  intro ms
  induction ms with
  | nil => intro k h m hm; simp [updateMembersWeek] at hm
  | cons m0 rest ih =>
    intro k h m hm
    rw [updateMembersWeek] at hm
    rcases List.mem_cons.mp hm with hEq | hMem
    · rw [hEq, updateMember_count]
      exact h m0 (List.mem_cons_self m0 rest)
    · exact ih _ (fun x hx => h x (List.mem_cons_of_mem m0 hx)) m hMem

theorem iterWeeks_members_count (p : Params) (u : Nat → ℚ) :
    ∀ (n : Nat) (st : LoopState), (∀ m ∈ st.members, m.internalTransactionCount = 0) →
      ∀ m ∈ (iterWeeks p u n st).members, m.internalTransactionCount = 0 := by
  intro n
  induction n with
  | zero => intro st h; exact h
  | succ n ih =>
    intro st h m hm
    rw [iterWeeks, runWeek_members] at hm
    exact updateMembersWeek_count p u _ _ (ih st h) m hm

theorem calculateMarketEfficiency_zero (ms : List SimMember) (week : Nat)
    (h : ∀ m ∈ ms, m.internalTransactionCount = 0) :
    calculateMarketEfficiency ms week = 0 := by
  unfold calculateMarketEfficiency npMean
  dsimp only
  have hmap : ms.map (fun m => ((m.internalTransactionCount : ℕ) : ℚ)) =
      ms.map (fun _ => (0 : ℚ)) :=
    List.map_congr_left fun m hm => by rw [h m hm]; norm_num
  rw [hmap, List.map_const']
  simp

theorem calculateMetrics_marketEfficiency (ms : List SimMember) (p : Params)
    (prev : Option MetricsRecord) (wA wB : List ℚ) (week : Nat) (u : Nat → ℚ)
    (k : Nat) (rec : MetricsRecord) (k2 : Nat)
    (h : calculateMetrics ms p prev wA wB week u k = .ok (rec, k2)) :
    rec.marketEfficiency = calculateMarketEfficiency ms week := by
  unfold calculateMetrics at h
  split at h
  · exact absurd h (by simp)
  · split at h
    · exact absurd h (by simp)
    · cases prev with
      | none =>
        simp only [Except.ok.injEq, Prod.mk.injEq] at h
        rw [← h.1]
      | some prevRecord =>
        simp only [Except.ok.injEq, Prod.mk.injEq] at h
        rw [← h.1]

theorem iterWeeks_history_marketEfficiency (p : Params) (u : Nat → ℚ) :
    ∀ (n : Nat) (st : LoopState),
      (∀ m ∈ st.members, m.internalTransactionCount = 0) →
      (∀ r ∈ st.history, r.marketEfficiency = 0) →
      ∀ r ∈ (iterWeeks p u n st).history, r.marketEfficiency = 0 := by
  intro n
  induction n with
  | zero => intro st _ hh; exact hh
  | succ n ih =>
    intro st hms hh r hr
    rw [iterWeeks] at hr
    set st' := iterWeeks p u n st with hst'
    have hms' : ∀ m ∈ st'.members, m.internalTransactionCount = 0 :=
      iterWeeks_members_count p u n st hms
    have hh' : ∀ x ∈ st'.history, x.marketEfficiency = 0 := ih st hms hh
    unfold runWeek at hr
    dsimp only at hr
    split at hr
    · exact hh' r hr
    · next rec k2 heq =>
      dsimp only at hr
      rcases List.mem_append.mp hr with hmem | hmem
      · exact hh' r hmem
      · have hrec : r = rec := List.mem_singleton.mp hmem
        subst hrec
        rw [calculateMetrics_marketEfficiency _ _ _ _ _ _ _ _ _ _ heq]
        exact calculateMarketEfficiency_zero _ _
          (updateMembersWeek_count p u _ _ hms')

/-- C10: in every run, every weekly metrics record's `MarketEfficiency`
equals 0 — no operation of the simulation ever increments any member's
`internal_transaction_count` after its initialization to 0, and
`MarketEfficiency` is the mean of those counters divided by the positive
week number and scaled by 10. -/
theorem claim_C10_market_efficiency_zero (p : Params) (u v : Nat → ℚ) (n : Nat) :
    ((runHistoryAfter p u v n).all fun r => decide (r.marketEfficiency = 0)) = true := by
  rw [List.all_eq_true]
  intro r hr
  rw [decide_eq_true_eq]
  unfold runHistoryAfter simStates initLoopState at hr
  cases hinit : initializeMembers p u v with
  | error e => rw [hinit] at hr; simp [Except.map, Except.toOption] at hr
  | ok msk =>
    rw [hinit] at hr
    simp only [Except.map, Except.toOption, Option.getD] at hr
    refine iterWeeks_history_marketEfficiency p u n _ ?_ ?_ r hr
    · intro x hx
      unfold initializeMembers at hinit
      cases hdraws : npLognormalDraws p.initialWealthMeanLog p.initialWealthSigmaLog
          v p.numMembers with
      | error e => rw [hdraws] at hinit; simp [Except.map] at hinit
      | ok ws =>
        rw [hdraws] at hinit
        simp only [Except.map, Except.ok.injEq] at hinit
        subst hinit
        exact buildMembers_count p u _ _ x hx
    · intro x hx
      simp at hx

/-! ## Event detection (claim C5) -/

theorem updateMembersWeek_lengths (p : Params) (u : Nat → ℚ) :
    ∀ (ms : List SimMember) (k : Nat),
      (updateMembersWeek p u ms k).1.length = ms.length ∧
      (updateMembersWeek p u ms k).2.1.length = ms.length ∧
      (updateMembersWeek p u ms k).2.2.1.length = ms.length := by
  intro ms
  induction ms with
  | nil => intro k; exact ⟨rfl, rfl, rfl⟩
  | cons m0 rest ih =>
    intro k
    rw [updateMembersWeek]
    obtain ⟨h1, h2, h3⟩ := ih (updateMember p u m0 k).2
    exact ⟨by simpa using h1, by simpa using h2, by simpa using h3⟩

theorem calculateMetrics_ok (ms : List SimMember) (p : Params)
    (prev : Option MetricsRecord) (wA wB : List ℚ) (week : Nat) (u : Nat → ℚ)
    (k : Nat) (hA : wA ≠ []) (hB : wB ≠ []) :
    ∃ rec k2, calculateMetrics ms p prev wA wB week u k = .ok (rec, k2) := by
  unfold calculateMetrics
  rw [if_neg hA, if_neg hB]
  cases prev with
  | none => exact ⟨_, _, rfl⟩
  | some q => exact ⟨_, _, rfl⟩

theorem calculateMetrics_week (ms : List SimMember) (p : Params)
    (prev : Option MetricsRecord) (wA wB : List ℚ) (week : Nat) (u : Nat → ℚ)
    (k : Nat) (rec : MetricsRecord) (k2 : Nat)
    (h : calculateMetrics ms p prev wA wB week u k = .ok (rec, k2)) :
    rec.week = week := by
  unfold calculateMetrics at h
  split at h
  · exact absurd h (by simp)
  · split at h
    · exact absurd h (by simp)
    · cases prev with
      | none =>
        simp only [Except.ok.injEq, Prod.mk.injEq] at h
        rw [← h.1]
      | some prevRecord =>
        simp only [Except.ok.injEq, Prod.mk.injEq] at h
        rw [← h.1]

theorem weekEvents_eq_spec (w : Nat) (prev current : MetricsRecord)
    (hw : current.week = w) : weekEvents w prev current = weekEventsSpec prev current := by
  unfold weekEvents weekEventsSpec
  rw [hw]

theorem weekEvents_week (w : Nat) (prev current : MetricsRecord) :
    ∀ e ∈ weekEvents w prev current, e.week = w := by
  intro e he
  unfold weekEvents at he
  rcases List.mem_append.mp he with h | h <;>
    [skip; skip] <;> split_ifs at h <;> simp_all

theorem eventsOfHistory_append (h : List MetricsRecord) (r : MetricsRecord) :
    eventsOfHistory (h ++ [r]) =
      eventsOfHistory h ++
        (match h.getLast? with
          | none => []
          | some q => weekEventsSpec q r) := by
  induction h with
  | nil => simp [eventsOfHistory]
  | cons a t ih =>
    cases t with
    | nil => simp [eventsOfHistory]
    | cons b t2 =>
      rw [List.cons_append, List.cons_append]
      rw [show eventsOfHistory (a :: b :: (t2 ++ [r])) =
            weekEventsSpec a b ++ eventsOfHistory (b :: (t2 ++ [r])) from rfl]
      rw [show eventsOfHistory (a :: b :: t2) =
            weekEventsSpec a b ++ eventsOfHistory (b :: t2) from rfl]
      rw [← List.cons_append, ih, List.append_assoc, List.getLast?_cons_cons]

theorem iterWeeks_nilMembers (p : Params) (u : Nat → ℚ) (k0 : Nat) (n : Nat) :
    iterWeeks p u n { members := [], history := [], events := [], prevMetrics := none, k := k0 } =
      { members := [], history := [], events := [], prevMetrics := none, k := k0 } := by
  induction n with
  | zero => rfl
  | succ n ih => rw [iterWeeks, ih]; rfl

theorem iterWeeks_events_invariant (p : Params) (u : Nat → ℚ)
    (ms0 : List SimMember) (hne : ms0 ≠ []) (k0 : Nat) : ∀ n : Nat,
    (iterWeeks p u n { members := ms0, history := [], events := [], prevMetrics := none, k := k0 }).members ≠ [] ∧
    (iterWeeks p u n { members := ms0, history := [], events := [], prevMetrics := none, k := k0 }).history.length = n ∧
    (iterWeeks p u n { members := ms0, history := [], events := [], prevMetrics := none, k := k0 }).events =
      eventsOfHistory (iterWeeks p u n { members := ms0, history := [], events := [], prevMetrics := none, k := k0 }).history ∧
    ∀ e ∈ (iterWeeks p u n { members := ms0, history := [], events := [], prevMetrics := none, k := k0 }).events,
      2 ≤ e.week := by
  intro n
  induction n with
  | zero => exact ⟨hne, rfl, rfl, fun e he => absurd he (List.not_mem_nil e)⟩
  | succ n ih =>
    obtain ⟨hm, hlen, hev, hweeks⟩ := ih
    set st := iterWeeks p u n
      { members := ms0, history := [], events := [], prevMetrics := none, k := k0 } with hst
    rw [iterWeeks, ← hst]
    obtain ⟨hL1, hL2, hL3⟩ := updateMembersWeek_lengths p u st.members st.k
    have hAne : (updateMembersWeek p u st.members st.k).2.1 ≠ [] := by
      intro hnil
      rw [← List.length_eq_zero, hL2, List.length_eq_zero] at hnil
      exact hm hnil
    have hBne : (updateMembersWeek p u st.members st.k).2.2.1 ≠ [] := by
      intro hnil
      rw [← List.length_eq_zero, hL3, List.length_eq_zero] at hnil
      exact hm hnil
    obtain ⟨rec, k2, heq⟩ := calculateMetrics_ok (updateMembersWeek p u st.members st.k).1
      p st.prevMetrics _ _ (n + 1) u (updateMembersWeek p u st.members st.k).2.2.2 hAne hBne
    have hrecweek : rec.week = n + 1 :=
      calculateMetrics_week _ _ _ _ _ _ _ _ _ _ heq
    unfold runWeek
    dsimp only
    rw [heq]
    dsimp only
    have hmemne : (updateMembersWeek p u st.members st.k).1 ≠ [] := by
      intro hnil
      rw [← List.length_eq_zero, hL1, List.length_eq_zero] at hnil
      exact hm hnil
    refine ⟨hmemne, by rw [List.length_append, hlen, List.length_singleton], ?_, ?_⟩
    · cases n with
      | zero =>
        have hhist : st.history = [] := List.length_eq_zero.mp hlen
        rw [if_neg (lt_irrefl 0), hhist, hev, hhist]
        rfl
      | succ m =>
        have hlast : st.history.getLast?.isSome := by
          rw [List.getLast?_isSome]
          intro hnil
          rw [hnil] at hlen
          exact Nat.succ_ne_zero m hlen.symm
        obtain ⟨q, hq⟩ := Option.isSome_iff_exists.mp hlast
        rw [if_pos (Nat.succ_pos m), hq, eventsOfHistory_append, hq, hev]
        dsimp only
        rw [weekEvents_eq_spec (m + 1 + 1) q rec hrecweek]
    · intro e he
      cases n with
      | zero =>
        rw [if_neg (lt_irrefl 0), List.append_nil] at he
        exact hweeks e he
      | succ m =>
        rw [if_pos (Nat.succ_pos m)] at he
        rcases List.mem_append.mp he with hold | hnew
        · exact hweeks e hold
        · cases hq : st.history.getLast? with
          | none => rw [hq] at hnew; exact absurd hnew (List.not_mem_nil e)
          | some q =>
            rw [hq] at hnew
            rw [weekEvents_week (m + 1 + 1) q rec e hnew]
            omega

/-- C5: the key-event list the simulation loop produces is exactly the
declarative event policy applied to the produced history — for every week
index `≥ 2` an `equality_improvement` event appears exactly when the new
record's `Gini_B` is strictly below the previous week's `Gini_B × 0.95`, a
`poverty_reduction` event exactly when the new `PovertyRate_B` is strictly
below the previous week's `PovertyRate_B × 0.9` — and every emitted event
carries a week number `≥ 2` (no events for week 1). -/
theorem claim_C5_event_detection (p : Params) (u v : Nat → ℚ) (n : Nat) :
    runEventsAfter p u v n = eventsOfHistory (runHistoryAfter p u v n) ∧
    ((runEventsAfter p u v n).all fun e => decide (2 ≤ e.week)) = true := by
  unfold runEventsAfter runHistoryAfter simStates initLoopState
  cases hinit : initializeMembers p u v with
  | error e => simp [Except.map, Except.toOption, eventsOfHistory]
  | ok msk =>
    obtain ⟨ms0, k0⟩ := msk
    simp only [Except.map, Except.toOption, Option.getD]
    rcases eq_or_ne ms0 [] with hnil | hne
    · subst hnil
      rw [iterWeeks_nilMembers]
      exact ⟨rfl, rfl⟩
    · obtain ⟨_, _, hev, hweeks⟩ := iterWeeks_events_invariant p u ms0 hne k0 n
      refine ⟨hev, ?_⟩
      rw [List.all_eq_true]
      intro e he
      rw [decide_eq_true_eq]
      exact hweeks e he

/-- C6 (code bug evaluation): in the concrete one-member, one-week run with
all draws zero, no member's percentile rank has increased since
initialization — the spec-side mobility score is 0 — yet the record's
`WealthMobilityScore` is `0.1`, not 0: the source computes it as
`random.random() * 0.4 + 0.1`, a random placeholder in `[0.1, 0.5)` that
never equals 0 and ignores percentile ranks entirely. -/
theorem claim_C6_mobility_score_bug :
    (runHistoryAfter pOne zeroStream zeroStream 1).map (·.wealthMobilityScore) = [1 / 10] ∧
    wealthMobilityScoreSpec (runMembersAfter pOne zeroStream zeroStream 1) = 0 ∧
    (1 / 10 : ℚ) ≠ 0 := by
  refine ⟨?_, ?_, by norm_num⟩
  · norm_num [runHistoryAfter, simStates, initLoopState, initializeMembers, npLognormalDraws,
      buildMembers, mkSimMember, gaussDraw, randomDraw, iterWeeks, runWeek, updateMembersWeek,
      updateMember, calculateMetrics, calculateWealthMobilityScore, calculateEconomicDiversity,
      zeroStream, pOne, Except.map, Except.toOption, Int.fract, min_def, max_def]
  · norm_num [runMembersAfter, simStates, initLoopState, initializeMembers, npLognormalDraws,
      buildMembers, mkSimMember, gaussDraw, randomDraw, iterWeeks, runWeek, updateMembersWeek,
      updateMember, calculateMetrics, zeroStream, pOne, Except.map, Except.toOption, Int.fract,
      min_def, max_def, wealthMobilityScoreSpec, percentileRankPct, List.filter_cons,
      decide_eq_true_eq]

/-- C7 (code bug evaluation): in the concrete one-member, one-week run with
all draws zero the member's actual internal spend for the week is 36 — the
full intended internal share, since the member can afford the whole
effective cost — which is strictly positive, yet after the week the
member's `internal_transaction_count` is still 0: the source loop never
increments the counter (nor computes the prorated internal spend at all). -/
theorem claim_C7_transaction_count_bug :
    (runMembersAfter pOne zeroStream zeroStream 0).map (actualInternalSpendSpec pOne) = [36] ∧
    (0 : ℚ) < 36 ∧
    (runMembersAfter pOne zeroStream zeroStream 1).map (·.internalTransactionCount) = [0] := by
  refine ⟨?_, by norm_num, ?_⟩
  · norm_num [runMembersAfter, simStates, initLoopState, initializeMembers, npLognormalDraws,
      buildMembers, mkSimMember, gaussDraw, randomDraw, iterWeeks, actualInternalSpendSpec,
      zeroStream, pOne, Except.map, Except.toOption, min_def, max_def, Int.fract]
  · norm_num [runMembersAfter, simStates, initLoopState, initializeMembers, npLognormalDraws,
      buildMembers, mkSimMember, gaussDraw, randomDraw, iterWeeks, runWeek, updateMembersWeek,
      updateMember, calculateMetrics, zeroStream, pOne, Except.map, Except.toOption,
      min_def, max_def, Int.fract]

end PMoves
